import Mathlib

/-!
# Verification of the NetBox Import Wizard against its specification

Shallow embedding of the parts of `netbox_wizard` (config_manager.py,
netbox_api.py, threading_classes.py, ui_components.py, nbwize_main.py)
that the checked claims are about, together with theorems settling each
claim.  Python values that can carry arbitrary JSON are embedded by the
inductive `JVal`; Python truthiness, `str()` coercion, `strip()` and
substring tests are modelled explicitly.
-/

namespace NetboxWizard

/-! ## String helpers: Python `in` (substring), coercion, quoting -/

/-- `charsStart p l` is true when the character list `p` is an initial
segment of `l` (helper for the Python substring operator). -/
def charsStart : List Char → List Char → Bool
  | [], _ => true
  | _ :: _, [] => false
  | a :: ps, b :: ls => a == b && charsStart ps ls

/-- `charsSub p l` is true when `p` occurs contiguously inside `l`
(the Python `in` operator on strings, over character lists). -/
def charsSub (p : List Char) : List Char → Bool
  | [] => charsStart p []
  | b :: ls => charsStart p (b :: ls) || charsSub p ls

/-- Python `sub in s` (substring containment). -/
def strContains (s sub : String) : Bool :=
  charsSub sub.data s.data

/-- Python `str.strip()`: drop whitespace from both ends (modelled over
the character list so that it is kernel-computable). -/
def pyStrip (s : String) : String :=
  ⟨((s.data.dropWhile Char.isWhitespace).reverse.dropWhile Char.isWhitespace).reverse⟩

/-- Python `str.lower()` (modelled over the character list so that it is
kernel-computable). -/
def pyLower (s : String) : String :=
  ⟨s.data.map Char.toLower⟩

/-- A single-quote character, used by the model of Python `repr`. -/
def quoteChar : Char := Char.ofNat 39

/-! ## JSON-ish values as loaded by `json.load` -/

/-- A Python value as produced by `json.load`: null, booleans, integers,
strings, lists and objects (JSON floats are not needed by any claim and
are omitted from the value universe). -/
inductive JVal where
  | jnull : JVal
  | jbool : Bool → JVal
  | jint : Int → JVal
  | jstr : String → JVal
  | jarr : List JVal → JVal
  | jobj : List (String × JVal) → JVal
deriving Repr

/-- Python `x is None` on an embedded value. -/
def JVal.isNull : JVal → Bool
  | .jnull => true
  | _ => false

mutual

/-- Model of Python `repr` for embedded values (string escaping inside
quotes is not reproduced; no claim depends on it). -/
def pyRepr : JVal → String
  | .jnull => "None"
  | .jbool true => "True"
  | .jbool false => "False"
  | .jint n => toString n
  | .jstr s => quoteChar.toString ++ s ++ quoteChar.toString
  | .jarr xs => "[" ++ String.intercalate ", " (pyReprList xs) ++ "]"
  | .jobj kvs => "\x7b" ++ String.intercalate ", " (pyReprObj kvs) ++ "\x7d"

def pyReprList : List JVal → List String
  | [] => []
  | v :: vs => pyRepr v :: pyReprList vs

def pyReprObj : List (String × JVal) → List String
  | [] => []
  | kv :: kvs => (quoteChar.toString ++ kv.1 ++ quoteChar.toString ++ ": " ++ pyRepr kv.2) :: pyReprObj kvs

end

/-- Model of Python `str()` applied to an embedded value. -/
def pyStr : JVal → String
  | .jstr s => s
  | v => pyRepr v

/-! ## Topology normalization (threading_classes.py, TopologyLoadThread) -/

/-- The element coercion used by
`TopologyLoadThread._safe_get_connections`: `str(...).strip()`, with
`None` coerced to the empty string. -/
def interfaceText (e : JVal) : String :=
  if e.isNull then "" else pyStrip (pyStr e)

/-- One entry of a peer's `connections` value as kept or dropped by
`_safe_get_connections`: kept only if it is a list of length at least 2
whose first two elements coerce (via `interfaceText`) to non-empty
strings. -/
def connectionEntry : JVal → Option (String × String)
  | .jarr (e0 :: e1 :: _) =>
    let local_int := interfaceText e0
    let remote_int := interfaceText e1
    if local_int ≠ "" ∧ remote_int ≠ "" then some (local_int, remote_int) else none
  | _ => none

/-- `TopologyLoadThread._safe_get_connections`: a non-list `connections`
value becomes the empty list; a list is filtered entry-wise by
`connectionEntry`. -/
def _safe_get_connections : JVal → List (String × String)
  | .jarr cs => cs.filterMap connectionEntry
  | _ => []

/-! ## Configuration manager (config_manager.py, ConfigManager) -/

/-- `NetBoxConnection` dataclass: non-secret saved-connection metadata. -/
structure NetBoxConnection where
  name : String
  url : String
  verify_ssl : Bool := false
  last_used : String := ""
deriving Repr, DecidableEq

/-- One entry of the credential file, as written by `ConfigManager`
(`key`/`password`/`type` mapping). -/
structure CredEntry where
  key : String
  password : String
  type : String
deriving Repr, DecidableEq

/-- The state a `ConfigManager` operates on: the unlocked flag of the
secure store, the in-memory connection list, the credential-entry list
held in the credential file, and the store's (external, abstract)
value-encryption function `enc` (`SecureCredentials.encrypt_value`). -/
structure ConfigState where
  unlocked : Bool
  connections : List NetBoxConnection
  creds : List CredEntry
  enc : String → String

/-- `ConfigManager.get_connection`: first connection with the given name. -/
def get_connection (s : ConfigState) (name : String) : Option NetBoxConnection :=
  s.connections.find? (fun c => c.name == name)

/-- The credential key used for a connection's API token. -/
def tokenKey (name : String) : String := "netbox_token_" ++ name

/-- The in-place update performed by `update_connection` on the object
returned by `get_connection`: the first connection with the given name
gets the new url and verify_ssl. -/
def updateFirstConn (name url : String) (ssl : Bool) : List NetBoxConnection → List NetBoxConnection
  | [] => []
  | c :: rest =>
    if c.name == name then { c with url := url, verify_ssl := ssl } :: rest
    else c :: updateFirstConn name url ssl rest

/-- The credential-list loop shared by `add_connection` and
`update_connection`: set the `password` of the first entry whose key
matches, leaving the list unchanged when no entry matches. -/
def updateFirstCred (key token : String) : List CredEntry → List CredEntry
  | [] => []
  | c :: rest =>
    if c.key == key then { c with password := token } :: rest
    else c :: updateFirstCred key token rest

/-- `ConfigManager.update_connection`: fails when no connection of that
name exists; otherwise updates the connection's url and verify_ssl and
sets the password of the matching credential entry (if any) to the
supplied token, returning success. -/
def update_connection (s : ConfigState) (name url token : String) (ssl : Bool) : Bool × ConfigState :=
  match get_connection s name with
  | none => (false, s)
  | some _ =>
    (true, { s with
      connections := updateFirstConn name url ssl s.connections,
      creds := updateFirstCred (tokenKey name) token s.creds })

/-- `ConfigManager.add_connection`: fails when the store is locked;
delegates to `update_connection` when the name already exists; otherwise
appends a new `NetBoxConnection`, computes the encrypted token (which the
source then leaves unused), and updates or appends the credential entry
with the supplied token as its `password`. -/
def add_connection (s : ConfigState) (name url token : String) (ssl : Bool) : Bool × ConfigState :=
  if !s.unlocked then (false, s)
  else
    match get_connection s name with
    | some _ => update_connection s name url token ssl
    | none =>
      let connection : NetBoxConnection := { name := name, url := url, verify_ssl := ssl }
      let encrypted_token := s.enc token
      let creds' :=
        if s.creds.any (fun c => c.key == tokenKey name) then
          updateFirstCred (tokenKey name) token s.creds
        else
          s.creds ++ [{ key := tokenKey name, password := token, type := "netbox_api_token" }]
      let _ := encrypted_token
      (true, { s with connections := s.connections ++ [connection], creds := creds' })

/-- `ConfigManager.get_connection_token`: none when locked, otherwise the
`password` of the first credential entry keyed for the connection. -/
def get_connection_token (s : ConfigState) (name : String) : Option String :=
  if !s.unlocked then none
  else
    match s.creds.find? (fun c => c.key == tokenKey name) with
    | some c => some c.password
    | none => none

/-- `ConfigManager.delete_connection`: fails when locked; otherwise drops
every connection of that name and every credential entry keyed for it,
returning success. -/
def delete_connection (s : ConfigState) (name : String) : Bool × ConfigState :=
  if !s.unlocked then (false, s)
  else
    (true, { s with
      connections := s.connections.filter (fun c => c.name != name),
      creds := s.creds.filter (fun c => c.key != tokenKey name) })

/-! ## Device discovery model (netbox_api.py, DeviceDiscoveryModel) -/

/-- Normalized `node_details` of a discovered device. -/
structure NodeDetails where
  ip : String
  platform : String
deriving Repr, DecidableEq

/-- Normalized peer record of a discovered device. -/
structure PeerRecord where
  ip : String
  platform : String
  connections : List (String × String)
deriving Repr, DecidableEq

/-- One normalized discovered device (value of the topology mapping). -/
structure DiscoveredDevice where
  node_details : NodeDetails
  peers : List (String × PeerRecord)
deriving Repr, DecidableEq

/-- An existing inventory (NetBox) device as read by the matcher: its
`name` attribute (absent or `None` modelled as `none`) and its displayed
primary IPv4 address (e.g. `10.0.0.5/24`). -/
structure NBDevice where
  name : Option String
  primary_ip4 : Option String
deriving Repr, DecidableEq

/-- The set of device names that will appear in the table: every
top-level device name plus every peer name not already a top-level
device (duplicates collapsed, mirroring the Python set). -/
def allDeviceNames (disc : List (String × DiscoveredDevice)) : List String :=
  let mains := disc.map Prod.fst
  let peerNames := (disc.map (fun kv => kv.2.peers.map Prod.fst)).flatten
  (mains ++ peerNames.filter (fun pn => !mains.contains pn)).eraseDups

/-- The per-inventory-device check of
`DeviceDiscoveryModel.find_potential_matches`: the inventory device has a
non-empty name equal to the candidate name case-insensitively. -/
def nameMatches (deviceName : String) (nb : NBDevice) : Bool :=
  match nb.name with
  | some nm => nm != "" && pyLower nm == pyLower deviceName
  | none => false

/-- The match list accumulated for one candidate name: one
`("name", device)` tuple per inventory device passing `nameMatches`. -/
def potentialMatchesFor (deviceName : String) (nbDevices : List NBDevice) : List (String × NBDevice) :=
  (nbDevices.filter (nameMatches deviceName)).map (fun nb => ("name", nb))

/-- `DeviceDiscoveryModel.find_potential_matches` (netbox_api.py): for
every candidate name, record its match list when non-empty; candidates
with no matches are absent from the result mapping. -/
def find_potential_matches (disc : List (String × DiscoveredDevice)) (nbDevices : List NBDevice) :
    List (String × List (String × NBDevice)) :=
  (allDeviceNames disc).filterMap (fun dn =>
    let pm := potentialMatchesFor dn nbDevices
    if pm.isEmpty then none else some (dn, pm))

/-- Modelled from the spec: the spec's IP-basis match strips any CIDR
suffix (`/<prefix>`) from the inventory device's primary IPv4 address
before comparing (`str(primary_ip4).split('/')[0]` in the earlier
wizard iterations, which are superseded by netbox_api.py). -/
def specStripCidr (s : String) : String :=
  ⟨s.data.takeWhile (fun c => c != '/')⟩

/-! ## Platform auto-matching (ui_components.py, DeviceTableWidget) -/

/-- An inventory platform record (id, name). -/
structure NBPlatform where
  id : Int
  name : String
deriving Repr, DecidableEq

/-- The fixed alias table of `_find_matching_platform`, in source order. -/
def platform_mappings : List (String × List String) :=
  [("cisco_ios", ["ios", "cisco-ios", "cisco_ios"]),
   ("cisco_nxos", ["nxos", "cisco-nxos", "cisco_nxos", "nexus"]),
   ("cisco_iosxe", ["iosxe", "cisco-iosxe", "cisco_iosxe"]),
   ("arista_eos", ["eos", "arista-eos", "arista_eos", "arista"]),
   ("juniper_junos", ["junos", "juniper-junos", "juniper_junos", "juniper"]),
   ("panos", ["palo-alto", "paloalto", "pan-os"]),
   ("fortios", ["fortinet", "fortigate"]),
   ("linux", ["ubuntu", "centos", "rhel", "debian"]),
   ("windows", ["win", "microsoft"])]

/-- The alias-table check applied to one platform: the platform's
lower-cased name equals a table key and the discovered string is one of
that key's aliases or contains one of them as a substring. -/
def aliasHit (discoveredLower platformNameLower : String) : Bool :=
  platform_mappings.any (fun kv =>
    platformNameLower == kv.1 &&
      (kv.2.contains discoveredLower ||
        kv.2.any (fun al => strContains discoveredLower al)))

/-- The substring fallback applied to one platform: bidirectional
case-insensitive substring containment. -/
def substrHit (discoveredLower platformNameLower : String) : Bool :=
  strContains platformNameLower discoveredLower || strContains discoveredLower platformNameLower

/-- The second loop of `_find_matching_platform`: per platform, first the
alias-table check, then the substring fallback; first hit wins. -/
def findPlatformAux (discoveredLower : String) : List NBPlatform → Option NBPlatform
  | [] => none
  | p :: rest =>
    if aliasHit discoveredLower (pyLower p.name) then some p
    else if substrHit discoveredLower (pyLower p.name) then some p
    else findPlatformAux discoveredLower rest

/-- `DeviceTableWidget._find_matching_platform`: no match for the empty
string; otherwise a case-insensitive exact name match wins, then the
alias/substring pass over the platform list in fetch order. -/
def _find_matching_platform (discovered_platform : String) (netbox_platforms : List NBPlatform) :
    Option NBPlatform :=
  if discovered_platform == "" then none
  else
    let discoveredLower := pyStrip (pyLower discovered_platform)
    match netbox_platforms.find? (fun p => pyLower p.name == discoveredLower) with
    | some p => some p
    | none => findPlatformAux discoveredLower netbox_platforms

/-! ## Device rows and auto-selection (ui_components.py) -/

/-- A prepared device-row record as built by `_prepare_device_list`:
name, ip, discovered platform, and the candidate's match list
(the dictionary key `matches` in the source; `matches` is reserved in
Lean, hence the field name `deviceMatches`). -/
structure DeviceRow where
  name : String
  ip : String
  platform : String
  deviceMatches : List (String × NBDevice)
deriving Repr, DecidableEq

/-- `DeviceTableWidget._should_auto_select`: false when the device has
any existing-inventory match; otherwise requires a truthy (non-empty,
non-blank after strip) ip and discovered platform. -/
def _should_auto_select (device : DeviceRow) : Bool :=
  let has_ip := device.ip != "" && pyStrip device.ip != ""
  let has_platform := device.platform != "" && pyStrip device.platform != ""
  if !device.deviceMatches.isEmpty then false
  else has_ip && has_platform

/-- The initial state of the import checkbox set by
`_populate_device_row`: unchecked, then checked when
`_should_auto_select` holds. -/
def initialImportChecked (device : DeviceRow) : Bool :=
  if _should_auto_select device then true else false

/-! ## Import validation (nbwize_main.py, NetBoxImportWizard.validate_import) -/

/-- One record returned by
`DeviceTableWidget.get_selected_devices_for_import` for a checked row:
the device name plus the (possibly unselected) picker ids. -/
structure SelectedDevice where
  name : String
  platform_id : Option Int
  site_id : Option Int
  role_id : Option Int
  type_id : Option Int
deriving Repr, DecidableEq

/-- Python falsiness of a picker id (`not device['site_id']`): the
sentinel `None`, or the integer 0. -/
def optIdFalsy : Option Int → Bool
  | none => true
  | some n => n == 0

/-- The validation errors recorded for one checked device, in source
order (site, role, device type). -/
def deviceValidationErrors (d : SelectedDevice) : List String :=
  (if optIdFalsy d.site_id then [d.name ++ ": Site not selected"] else []) ++
  (if optIdFalsy d.role_id then [d.name ++ ": Role not selected"] else []) ++
  (if optIdFalsy d.type_id then [d.name ++ ": Device type not selected"] else [])

/-- Outcome of `validate_import`: a shown list of validation errors, the
distinct no-devices-selected notice, or success carrying the validated
device list (with the Start Import action enabled). -/
inductive ValidateOutcome where
  | validationErrors (errors : List String)
  | noDevicesSelected
  | ok (devices : List SelectedDevice)
deriving Repr, DecidableEq

/-- `NetBoxImportWizard.validate_import` over the checked rows: collect
per-device errors for unset site/role/device-type; show them all and
block if any; block with the distinct no-devices notice if no row is
checked; otherwise succeed. -/
def validate_import (devices_to_import : List SelectedDevice) : ValidateOutcome :=
  let validation_errors := (devices_to_import.map deviceValidationErrors).flatten
  if !validation_errors.isEmpty then .validationErrors validation_errors
  else if devices_to_import.isEmpty then .noDevicesSelected
  else .ok devices_to_import

/-- Whether `validate_import` enables the Start Import action. -/
def importEnabled (devices_to_import : List SelectedDevice) : Bool :=
  match validate_import devices_to_import with
  | .ok _ => true
  | _ => false

/-! ## Device import thread (threading_classes.py, DeviceImportThread) -/

/-- The device-creation payload built by `DeviceImportThread.run`:
status fixed to `active`, platform present only when the request's
platform id is truthy. -/
structure DevicePayload where
  name : String
  site : Option Int
  device_role : Option Int
  device_type : Option Int
  status : String
  platform : Option Int
deriving Repr, DecidableEq

/-- Payload construction inside `DeviceImportThread.run`. -/
def buildPayload (d : SelectedDevice) : DevicePayload :=
  { name := d.name,
    site := d.site_id,
    device_role := d.role_id,
    device_type := d.type_id,
    status := "active",
    platform := if !optIdFalsy d.platform_id then d.platform_id else none }

/-- A signal emitted by the import thread: per-device progress, a
per-device creation result, or the final aggregate. -/
inductive ImportEvent where
  | progress (device_name : String) (current total : Nat)
  | deviceCreated (device_name : String) (success : Bool) (message : String)
  | complete (successful failed : Nat)
deriving Repr, DecidableEq

/-- Result of one backend `create_device` call: the created record id, or
the text of the raised exception. -/
def CreateResult := Except String Nat

/-- Whether a create call succeeded. -/
def createOk : Except String Nat → Bool
  | .ok _ => true
  | .error _ => false

/-- The loop body of `DeviceImportThread.run` (cancellation never
requested), carrying the 0-based index and the success/failure counters;
emits the final aggregate after the last item. -/
def importRunAux (create : DevicePayload → Except String Nat) :
    List SelectedDevice → Nat → Nat → Nat → Nat → List ImportEvent
  | [], _, successful, failed, _ => [.complete successful failed]
  | d :: rest, i, successful, failed, total =>
    .progress d.name (i + 1) total ::
      match create (buildPayload d) with
      | .ok rid =>
        .deviceCreated d.name true ("Created successfully (ID: " ++ toString rid ++ ")") ::
          importRunAux create rest (i + 1) (successful + 1) failed total
      | .error e =>
        .deviceCreated d.name false ("Failed: " ++ e) ::
          importRunAux create rest (i + 1) successful (failed + 1) total

/-- `DeviceImportThread.run` with no cancellation request: the ordered
list of emitted signals, parameterized by the backend create call. -/
def importRun (create : DevicePayload → Except String Nat) (import_data : List SelectedDevice) :
    List ImportEvent :=
  importRunAux create import_data 0 0 0 import_data.length

/-- The per-device result signals among a signal list, keeping order. -/
def deviceResultEvents (evs : List ImportEvent) : List (String × Bool) :=
  evs.filterMap (fun ev =>
    match ev with
    | .deviceCreated n s _ => some (n, s)
    | _ => none)

/-- A concrete backend behavior for the 3-device scenario: creation
succeeds for every device except the one named `edge3`, for which the
call raises. -/
def exampleCreate : DevicePayload → Except String Nat :=
  fun p => if p.name == "edge3" then .error "API error" else .ok 101

/-- The concrete 3-device import request list of the scenario. -/
def exampleImportItems : List SelectedDevice :=
  [⟨"edge1", some 5, some 1, some 2, some 3⟩,
   ⟨"edge2", none, some 1, some 2, some 3⟩,
   ⟨"edge3", some 5, some 1, some 2, some 3⟩]

/-- A discovered topology holding one device `devA` whose node-details
IP is `10.0.0.5` and that has no peers. -/
def c1Disc : List (String × DiscoveredDevice) :=
  [("devA", ⟨⟨"10.0.0.5", ""⟩, []⟩)]

/-- One existing inventory device named `other` whose primary IPv4 is
`10.0.0.5/24`. -/
def c1Inventory : List NBDevice :=
  [⟨some "other", some "10.0.0.5/24"⟩]

/-- An unlocked store with no connections and no credential entries,
whose external encryption function tags its input. -/
def c2State : ConfigState :=
  ⟨true, [], [], fun t => "ENC:" ++ t⟩

/-- An unlocked store with no connections and no credential entries. -/
def emptyStore : ConfigState :=
  ⟨true, [], [], id⟩

/-- An unlocked store holding one saved connection named `lab1` and an
empty credential-entry list (no token stored for `lab1`). -/
def c9Store : ConfigState :=
  ⟨true, [⟨"lab1", "https://old.example.com", false, ""⟩], [], id⟩

/-! ## Theorems settling the claims -/

/-- Claim C5: in topology normalization, for every peer record a
`connections` value that is not a list becomes the empty list, and a
connection entry is kept iff it is a list of at least two elements whose
first two elements are non-empty after string coercion and trimming,
kept as exactly the pair of those two trimmed strings; in particular
`["Gi0/1"]` is dropped, `["Gi0/1", ""]` is dropped, and
`["Gi0/1", "Gi0/2"]` is kept unchanged. -/
theorem C5_connections_normalization :
    (∀ v : JVal, (∀ xs, v ≠ JVal.jarr xs) → _safe_get_connections v = []) ∧
    (∀ cs : List JVal, _safe_get_connections (JVal.jarr cs) = cs.filterMap connectionEntry) ∧
    (∀ (c : JVal) (p : String × String),
      connectionEntry c = some p ↔
        ∃ e0 e1 rest, c = JVal.jarr (e0 :: e1 :: rest) ∧
          interfaceText e0 ≠ "" ∧ interfaceText e1 ≠ "" ∧
          p = (interfaceText e0, interfaceText e1)) ∧
    _safe_get_connections (JVal.jarr [JVal.jarr [JVal.jstr "Gi0/1"]]) = [] ∧
    _safe_get_connections (JVal.jarr [JVal.jarr [JVal.jstr "Gi0/1", JVal.jstr ""]]) = [] ∧
    _safe_get_connections (JVal.jarr [JVal.jarr [JVal.jstr "Gi0/1", JVal.jstr "Gi0/2"]]) =
      [("Gi0/1", "Gi0/2")] := by
  refine ⟨?_, ?_, ?_, rfl, rfl, rfl⟩
  · intro v hv
    cases v with
    | jarr xs => exact absurd rfl (hv xs)
    | jnull => rfl
    | jbool b => rfl
    | jint n => rfl
    | jstr s => rfl
    | jobj kvs => rfl
  · intro cs
    rfl
  · intro c p
    constructor
    · intro h
      match c with
      | .jnull | .jbool _ | .jint _ | .jstr _ | .jobj _ =>
        exact absurd h (by simp [connectionEntry])
      | .jarr [] => exact absurd h (by simp [connectionEntry])
      | .jarr [e] => exact absurd h (by simp [connectionEntry])
      | .jarr (e0 :: e1 :: rest) =>
        refine ⟨e0, e1, rest, rfl, ?_⟩
        by_cases h0 : interfaceText e0 = ""
        · simp [connectionEntry, h0] at h
        · by_cases h1 : interfaceText e1 = ""
          · simp [connectionEntry, h0, h1] at h
          · simp only [connectionEntry, if_pos (And.intro h0 h1), Option.some.injEq] at h
            exact ⟨h0, h1, h.symm⟩
    · rintro ⟨e0, e1, rest, rfl, h0, h1, rfl⟩
      simp only [connectionEntry]
      exact if_pos ⟨h0, h1⟩

/-- Witness for C5: the non-list branch of the theorem applied to a
concrete non-list value. -/
theorem C5_connections_normalization_witness :
    _safe_get_connections (JVal.jstr "not-a-list") = [] :=
  C5_connections_normalization.1 (JVal.jstr "not-a-list") (fun _ h => JVal.noConfusion h)

/-- Python truthiness of `s and s.strip()`: true exactly when the
stripped string is non-empty. -/
theorem truthyStripped (s : String) :
    (s != "" && pyStrip s != "") = true ↔ pyStrip s ≠ "" := by
  constructor
  · intro h
    simp only [Bool.and_eq_true, bne_iff_ne, ne_eq] at h
    exact h.2
  · intro h
    have hs : s ≠ "" := by
      intro he
      exact h (by rw [he]; rfl)
    simp only [Bool.and_eq_true, bne_iff_ne, ne_eq]
    exact ⟨hs, h⟩

/-- Claim C7: a device row's import checkbox is initially checked iff the
device's ip is non-blank after trimming, its discovered platform is
non-blank after trimming, and it has zero existing-inventory matches. -/
theorem C7_auto_select (device : DeviceRow) :
    initialImportChecked device = true ↔
      (pyStrip device.ip ≠ "" ∧ pyStrip device.platform ≠ "" ∧ device.deviceMatches = []) := by
  have hred : initialImportChecked device = _should_auto_select device := by
    unfold initialImportChecked
    cases _should_auto_select device <;> simp
  rw [hred]
  unfold _should_auto_select
  cases hdm : device.deviceMatches with
  | nil =>
    simp only [hdm, List.isEmpty_nil, Bool.not_true, Bool.false_eq_true, if_false,
      Bool.and_eq_true, bne_iff_ne, ne_eq, and_true]
    constructor
    · rintro ⟨⟨-, hip⟩, -, hpl⟩
      exact ⟨hip, hpl⟩
    · rintro ⟨hip, hpl⟩
      have hi : device.ip ≠ "" := fun he => hip (by rw [he]; rfl)
      have hp : device.platform ≠ "" := fun he => hpl (by rw [he]; rfl)
      exact ⟨⟨hi, hip⟩, hp, hpl⟩
  | cons m ms =>
    simp [hdm]

/-- `charsStart` holds of a list against itself followed by anything. -/
theorem charsStart_self (p l : List Char) : charsStart p (p ++ l) = true := by
  induction p with
  | nil => rfl
  | cons a ps ih => simp [charsStart, ih]

/-- A successful `charsStart` gives a successful `charsSub`. -/
theorem charsSub_of_start (p l : List Char) (h : charsStart p l = true) : charsSub p l = true := by
  cases l with
  | nil => simpa [charsSub] using h
  | cons b ls => simp [charsSub, h]

/-- `charsSub` is stable under prepending text. -/
theorem charsSub_append_left (p x l : List Char) (h : charsSub p l = true) :
    charsSub p (x ++ l) = true := by
  induction x with
  | nil => simpa using h
  | cons c cs ih => simp [charsSub, ih]

/-- A string contains any of its own prefixes. -/
theorem strContains_left (a b : String) : strContains (a ++ b) a = true := by
  unfold strContains
  rw [String.data_append]
  exact charsSub_of_start _ _ (charsStart_self _ _)

/-- Containment in the appended tail survives prepending a string. -/
theorem strContains_right (a b sub : String) (h : strContains b sub = true) :
    strContains (a ++ b) sub = true := by
  unfold strContains at h ⊢
  rw [String.data_append]
  exact charsSub_append_left _ _ _ h

/-- The length of the per-device validation error list is the number of
missing fields of that device. -/
theorem deviceValidationErrors_length (d : SelectedDevice) :
    (deviceValidationErrors d).length =
      (if optIdFalsy d.site_id then 1 else 0) + (if optIdFalsy d.role_id then 1 else 0) +
        (if optIdFalsy d.type_id then 1 else 0) := by
  unfold deviceValidationErrors
  cases optIdFalsy d.site_id <;> cases optIdFalsy d.role_id <;> cases optIdFalsy d.type_id <;> simp

/-- Claim C8: `validate_import` fails when any checked row lacks a site,
role, or device-type selection, reporting one error per missing field
(for a missing device type, an error containing the device's name and
the words "Device type"); with zero checked rows it fails with the
distinct no-devices-selected condition rather than an empty error list;
with at least one checked row and all fields set it succeeds and enables
the import action. -/
theorem C8_validate_import :
    (∀ (ds : List SelectedDevice) (d : SelectedDevice), d ∈ ds →
      (optIdFalsy d.site_id || optIdFalsy d.role_id || optIdFalsy d.type_id) = true →
      ∃ es, validate_import ds = .validationErrors es ∧
        es ≠ [] ∧
        es.length = (ds.map (fun d' =>
          (if optIdFalsy d'.site_id then 1 else 0) + (if optIdFalsy d'.role_id then 1 else 0) +
            (if optIdFalsy d'.type_id then 1 else 0))).sum ∧
        (∀ d' ∈ ds, optIdFalsy d'.type_id = true →
          ∃ e ∈ es, strContains e d'.name = true ∧ strContains e "Device type" = true)) ∧
    validate_import [] = .noDevicesSelected ∧
    (∀ ds : List SelectedDevice, ds ≠ [] →
      (∀ d ∈ ds, optIdFalsy d.site_id = false ∧ optIdFalsy d.role_id = false ∧
        optIdFalsy d.type_id = false) →
      validate_import ds = .ok ds ∧ importEnabled ds = true) := by
  refine ⟨?_, rfl, ?_⟩
  · intro ds d hd hfalsy
    have hne : (ds.map deviceValidationErrors).flatten ≠ [] := by
      have hdne : deviceValidationErrors d ≠ [] := by
        unfold deviceValidationErrors
        simp only [Bool.or_eq_true] at hfalsy
        rcases hfalsy with (h | h) | h <;> simp [h]
      have : ∃ e, e ∈ (ds.map deviceValidationErrors).flatten := by
        rcases List.exists_mem_of_ne_nil _ hdne with ⟨e, he⟩
        exact ⟨e, List.mem_flatten.2 ⟨deviceValidationErrors d, List.mem_map_of_mem _ hd, he⟩⟩
      rcases this with ⟨e, he⟩
      exact List.ne_nil_of_mem he
    refine ⟨(ds.map deviceValidationErrors).flatten, ?_, hne, ?_, ?_⟩
    · unfold validate_import
      simp [List.isEmpty_iff, hne]
    · rw [List.length_flatten, List.map_map]
      have hcong : ∀ d' ∈ ds, (List.length ∘ deviceValidationErrors) d' =
          (if optIdFalsy d'.site_id then 1 else 0) + (if optIdFalsy d'.role_id then 1 else 0) +
            (if optIdFalsy d'.type_id then 1 else 0) :=
        fun d' _ => deviceValidationErrors_length d'
      rw [List.map_congr_left hcong]
    · intro d' hd' htype
      have hmem : (d'.name ++ ": Device type not selected") ∈ deviceValidationErrors d' := by
        unfold deviceValidationErrors
        simp [htype]
      refine ⟨d'.name ++ ": Device type not selected",
        List.mem_flatten.2 ⟨deviceValidationErrors d', List.mem_map_of_mem _ hd', hmem⟩, ?_, ?_⟩
      · exact strContains_left _ _
      · exact strContains_right _ _ _ (by decide)
  · intro ds hne hall
    have hze : (ds.map deviceValidationErrors).flatten = [] := by
      rw [List.flatten_eq_nil_iff]
      intro l hl
      rcases List.mem_map.1 hl with ⟨d, hd, rfl⟩
      rcases hall d hd with ⟨h1, h2, h3⟩
      unfold deviceValidationErrors
      simp [h1, h2, h3]
    have hv : validate_import ds = .ok ds := by
      unfold validate_import
      simp [hze, List.isEmpty_iff, hne]
    exact ⟨hv, by unfold importEnabled; rw [hv]⟩

/-- Witness for C8: the theorem applied at concrete inputs — a single
checked row with no device type selected produces a non-empty error list
whose entry names the device and the missing field, and a fully
configured row validates successfully. -/
theorem C8_validate_import_witness :
    (∃ es, validate_import [⟨"sw1", some 1, some 2, some 3, none⟩] = .validationErrors es ∧
      es ≠ [] ∧
      es.length = (([⟨"sw1", some 1, some 2, some 3, none⟩] : List SelectedDevice).map (fun d' =>
        (if optIdFalsy d'.site_id then 1 else 0) + (if optIdFalsy d'.role_id then 1 else 0) +
          (if optIdFalsy d'.type_id then 1 else 0))).sum ∧
      (∀ d' ∈ ([⟨"sw1", some 1, some 2, some 3, none⟩] : List SelectedDevice),
        optIdFalsy d'.type_id = true →
        ∃ e ∈ es, strContains e d'.name = true ∧ strContains e "Device type" = true)) ∧
    validate_import [⟨"sw2", some 1, some 2, some 3, some 4⟩] =
      .ok [⟨"sw2", some 1, some 2, some 3, some 4⟩] ∧
    importEnabled [⟨"sw2", some 1, some 2, some 3, some 4⟩] = true := by
  refine ⟨?_, ?_⟩
  · exact C8_validate_import.1 [⟨"sw1", some 1, some 2, some 3, none⟩]
      ⟨"sw1", some 1, some 2, some 3, none⟩ (List.mem_singleton.2 rfl) (by decide)
  · exact C8_validate_import.2.2 [⟨"sw2", some 1, some 2, some 3, some 4⟩]
      (by decide) (by decide)

/-- The alias/substring pass returns nothing when no platform passes
either check. -/
theorem findPlatformAux_eq_none (dl : String) (ps : List NBPlatform)
    (h : ∀ p ∈ ps, aliasHit dl (pyLower p.name) = false ∧ substrHit dl (pyLower p.name) = false) :
    findPlatformAux dl ps = none := by
  induction ps with
  | nil => rfl
  | cons p rest ih =>
    rcases h p (List.mem_cons_self p rest) with ⟨h1, h2⟩
    simp only [findPlatformAux, h1, h2, Bool.false_eq_true, if_false]
    exact ih (fun q hq => h q (List.mem_cons_of_mem p hq))

/-- Claim C4: platform auto-matching returns a platform whose name
equals the discovered string case-insensitively when one exists; the
alias table applies otherwise ("IOS" matches "cisco_ios" via alias
"ios", "arista" matches "arista_eos" via alias "arista"); a string with
no exact, alias, or bidirectional-substring relation to any platform
name yields no match ("totally-unknown-os" concretely); the blank string
yields no match. -/
theorem C4_platform_matching :
    (∀ (d : String) (ps : List NBPlatform), d ≠ "" →
      (∃ p ∈ ps, pyLower p.name = pyStrip (pyLower d)) →
      ∃ q, _find_matching_platform d ps = some q ∧ pyLower q.name = pyStrip (pyLower d)) ∧
    _find_matching_platform "IOS" [⟨1, "cisco_ios"⟩] = some ⟨1, "cisco_ios"⟩ ∧
    _find_matching_platform "arista" [⟨2, "arista_eos"⟩] = some ⟨2, "arista_eos"⟩ ∧
    (∀ (d : String) (ps : List NBPlatform),
      (∀ p ∈ ps, pyLower p.name ≠ pyStrip (pyLower d) ∧
        aliasHit (pyStrip (pyLower d)) (pyLower p.name) = false ∧
        substrHit (pyStrip (pyLower d)) (pyLower p.name) = false) →
      _find_matching_platform d ps = none) ∧
    _find_matching_platform "totally-unknown-os" [⟨1, "cisco_ios"⟩, ⟨2, "arista_eos"⟩] = none ∧
    (∀ ps : List NBPlatform, _find_matching_platform "" ps = none) := by
  refine ⟨?_, by decide, by decide, ?_, by decide, ?_⟩
  · intro d ps hd hex
    have hfind : (ps.find? (fun p => pyLower p.name == pyStrip (pyLower d))).isSome := by
      rcases hex with ⟨p, hp, hcond⟩
      exact List.find?_isSome.2 ⟨p, hp, by simp [hcond]⟩
    rcases Option.isSome_iff_exists.1 hfind with ⟨q, hq⟩
    have hres : _find_matching_platform d ps = some q := by
      unfold _find_matching_platform
      rw [if_neg (by simpa using hd)]
      simp only [hq]
    refine ⟨q, hres, ?_⟩
    have := List.find?_some hq
    simpa using this
  · intro d ps h
    by_cases hd : d = ""
    · subst hd
      unfold _find_matching_platform
      simp
    · unfold _find_matching_platform
      rw [if_neg (by simpa using hd)]
      have hfind : ps.find? (fun p => pyLower p.name == pyStrip (pyLower d)) = none := by
        rw [List.find?_eq_none]
        intro p hp
        simp [(h p hp).1]
      simp only [hfind]
      exact findPlatformAux_eq_none _ _ (fun p hp => ⟨(h p hp).2.1, (h p hp).2.2⟩)
  · intro ps
    rfl

/-- Witness for C4: the exact-match branch applied at a concrete input
(discovered string "Cisco_IOS" against a platform literally named
"cisco_ios"), and the no-relation branch applied at
"totally-unknown-os" against a singleton platform list. -/
theorem C4_platform_matching_witness :
    (∃ q, _find_matching_platform "Cisco_IOS" [⟨7, "cisco_ios"⟩] = some q ∧
      pyLower q.name = pyStrip (pyLower "Cisco_IOS")) ∧
    _find_matching_platform "totally-unknown-os" [⟨3, "juniper_junos"⟩] = none := by
  constructor
  · exact C4_platform_matching.1 "Cisco_IOS" [⟨7, "cisco_ios"⟩] (by decide)
      ⟨⟨7, "cisco_ios"⟩, List.mem_singleton.2 rfl, by decide⟩
  · exact C4_platform_matching.2.2.2.1 "totally-unknown-os" [⟨3, "juniper_junos"⟩]
      (by decide)

/-- The per-device result signals of the import loop are exactly one per
input item, in input order, flagged by the outcome of the create call. -/
theorem importRunAux_deviceResults (create : DevicePayload → Except String Nat)
    (items : List SelectedDevice) : ∀ i s f t,
    deviceResultEvents (importRunAux create items i s f t) =
      items.map (fun d => (d.name, createOk (create (buildPayload d)))) := by
  induction items with
  | nil => intro i s f t; rfl
  | cons d rest ih =>
    intro i s f t
    unfold importRunAux
    cases hc : create (buildPayload d) with
    | ok rid => simpa [deviceResultEvents, createOk, hc] using ih (i + 1) (s + 1) f t
    | error e => simpa [deviceResultEvents, createOk, hc] using ih (i + 1) s (f + 1) t

/-- The import loop ends with the aggregate signal carrying the running
counters plus the success/failure counts of the remaining items. -/
theorem importRunAux_concat (create : DevicePayload → Except String Nat)
    (items : List SelectedDevice) : ∀ i s f t,
    ∃ pre, importRunAux create items i s f t =
      pre ++ [ImportEvent.complete
        (s + items.countP (fun d => createOk (create (buildPayload d))))
        (f + items.countP (fun d => !createOk (create (buildPayload d))))] := by
  induction items with
  | nil =>
    intro i s f t
    exact ⟨[], by simp [importRunAux]⟩
  | cons d rest ih =>
    intro i s f t
    unfold importRunAux
    cases hc : create (buildPayload d) with
    | ok rid =>
      rcases ih (i + 1) (s + 1) f t with ⟨pre, hpre⟩
      refine ⟨.progress d.name (i + 1) t ::
        .deviceCreated d.name true ("Created successfully (ID: " ++ toString rid ++ ")") :: pre, ?_⟩
      simp [hpre, List.countP_cons, createOk, hc, List.cons_append]
      omega
    | error e =>
      rcases ih (i + 1) s (f + 1) t with ⟨pre, hpre⟩
      refine ⟨.progress d.name (i + 1) t ::
        .deviceCreated d.name false ("Failed: " ++ e) :: pre, ?_⟩
      simp [hpre, List.countP_cons, createOk, hc, List.cons_append]
      omega

/-- Claim C3: for every ordered import request list and backend create
behavior, the import thread (absent cancellation) emits exactly one
per-device result signal per item, in input order, flagged by whether
that item's create call succeeded; the run is not aborted by failures,
and the final emitted signal is the aggregate
(number successful, number failed); in the concrete 2-succeed/1-fail
3-device scenario the aggregate is (2, 1). -/
theorem C3_import_run :
    (∀ (create : DevicePayload → Except String Nat) (items : List SelectedDevice),
      deviceResultEvents (importRun create items) =
        items.map (fun d => (d.name, createOk (create (buildPayload d)))) ∧
      (deviceResultEvents (importRun create items)).length = items.length ∧
      (importRun create items).getLast? =
        some (.complete (items.countP (fun d => createOk (create (buildPayload d))))
          (items.countP (fun d => !createOk (create (buildPayload d)))))) ∧
    deviceResultEvents (importRun exampleCreate exampleImportItems) =
      [("edge1", true), ("edge2", true), ("edge3", false)] ∧
    (importRun exampleCreate exampleImportItems).getLast? = some (.complete 2 1) := by
  refine ⟨?_, by decide, by decide⟩
  intro create items
  refine ⟨importRunAux_deviceResults create items 0 0 0 items.length, ?_, ?_⟩
  · unfold importRun
    rw [importRunAux_deviceResults create items 0 0 0 items.length]
    simp
  · rcases importRunAux_concat create items 0 0 0 items.length with ⟨pre, hpre⟩
    unfold importRun
    rw [hpre]
    simp

/-- The candidate match list is non-empty exactly when some inventory
device passes the name check. -/
theorem potentialMatchesFor_ne_nil (dn : String) (nbs : List NBDevice) :
    potentialMatchesFor dn nbs ≠ [] ↔ ∃ nb ∈ nbs, nameMatches dn nb = true := by
  unfold potentialMatchesFor
  rw [ne_eq, List.map_eq_nil_iff, ← ne_eq]
  constructor
  · intro h
    rcases List.exists_mem_of_ne_nil _ h with ⟨nb, hnb⟩
    exact ⟨nb, List.mem_of_mem_filter hnb, List.of_mem_filter hnb⟩
  · rintro ⟨nb, hmem, hmatch⟩
    exact List.ne_nil_of_mem (List.mem_filter.2 ⟨hmem, hmatch⟩)

/-- Counterexample to claim C1 as stated: the discovered device `devA`
has the non-empty node-details IP `10.0.0.5`, which equals the inventory
device's primary IPv4 `10.0.0.5/24` with its CIDR suffix stripped, so
the claim asserts a match is recorded for `devA`; but
`find_potential_matches` (netbox_api.py matches by name only) records
nothing — the returned mapping is empty. -/
theorem C1_counterexample :
    "devA" ∈ allDeviceNames c1Disc ∧
    (∃ d ∈ c1Disc, d.1 = "devA" ∧ d.2.node_details.ip ≠ "" ∧
      (∃ nb ∈ c1Inventory, nb.primary_ip4 = some "10.0.0.5/24" ∧
        specStripCidr "10.0.0.5/24" = d.2.node_details.ip)) ∧
    find_potential_matches c1Disc c1Inventory = [] := by
  refine ⟨by decide, ?_, by decide⟩
  refine ⟨("devA", ⟨⟨"10.0.0.5", ""⟩, []⟩), by decide, rfl, by decide, ?_⟩
  exact ⟨⟨some "other", some "10.0.0.5/24"⟩, by decide, rfl, by decide⟩

/-- Claim C1 as amended: for every discovered device name (top-level or
peer-only), `find_potential_matches` records an entry for that name iff
some existing inventory device has a present, non-empty name equal to it
case-insensitively — the node-details IP is never consulted — and the
recorded entry is exactly the list of `("name", device)` tuples of the
matching inventory devices; names with zero matches are absent from the
returned mapping. -/
theorem C1_amended (disc : List (String × DiscoveredDevice)) (nbDevices : List NBDevice)
    (dn : String) (hdn : dn ∈ allDeviceNames disc) :
    ((∃ ms, (dn, ms) ∈ find_potential_matches disc nbDevices) ↔
      ∃ nb ∈ nbDevices, nameMatches dn nb = true) ∧
    (∀ ms, (dn, ms) ∈ find_potential_matches disc nbDevices →
      ms = potentialMatchesFor dn nbDevices) := by
  constructor
  · constructor
    · rintro ⟨ms, hms⟩
      rcases List.mem_filterMap.1 hms with ⟨a, _, hfa⟩
      by_cases hne : (potentialMatchesFor a nbDevices).isEmpty
      · simp [hne] at hfa
      · simp only [hne, Bool.false_eq_true, if_false] at hfa
        rcases Option.some.inj hfa with h
        have ha : a = dn := congrArg Prod.fst h
        subst ha
        exact (potentialMatchesFor_ne_nil a nbDevices).1
          (by simpa [List.isEmpty_iff] using hne)
    · intro hex
      have hne : potentialMatchesFor dn nbDevices ≠ [] :=
        (potentialMatchesFor_ne_nil dn nbDevices).2 hex
      refine ⟨potentialMatchesFor dn nbDevices, List.mem_filterMap.2 ⟨dn, hdn, ?_⟩⟩
      simp [List.isEmpty_iff, hne]
  · intro ms hms
    rcases List.mem_filterMap.1 hms with ⟨a, _, hfa⟩
    by_cases hne : (potentialMatchesFor a nbDevices).isEmpty
    · simp [hne] at hfa
    · simp only [hne, Bool.false_eq_true, if_false] at hfa
      rcases Option.some.inj hfa with h
      have ha : a = dn := congrArg Prod.fst h
      subst ha
      exact (congrArg Prod.snd h).symm

/-- Witness for C1 (amended): a discovered device `sw1` against an
inventory device named `SW1` — the name-basis match is recorded. -/
theorem C1_amended_witness :
    ∃ ms, ("sw1", ms) ∈
      find_potential_matches [("sw1", ⟨⟨"", ""⟩, []⟩)] [⟨some "SW1", none⟩] :=
  ((C1_amended [("sw1", ⟨⟨"", ""⟩, []⟩)] [⟨some "SW1", none⟩] "sw1" (by decide)).1).2
    ⟨⟨some "SW1", none⟩, by decide, by decide⟩

/-- The credential loop leaves the list unchanged when no entry has the
given key. -/
theorem updateFirstCred_id (key token : String) (creds : List CredEntry)
    (h : ∀ ce ∈ creds, ce.key ≠ key) : updateFirstCred key token creds = creds := by
  induction creds with
  | nil => rfl
  | cons c rest ih =>
    have hc : (c.key == key) = false := by
      simp [h c (List.mem_cons_self c rest)]
    simp only [updateFirstCred, hc, Bool.false_eq_true, if_false, List.cons.injEq, true_and]
    exact ih (fun ce hce => h ce (List.mem_cons_of_mem c hce))

/-- Updating the first connection of a given name preserves the
name-count of every list. -/
theorem countP_updateFirstConn (name url : String) (ssl : Bool) (conns : List NetBoxConnection) :
    (updateFirstConn name url ssl conns).countP (fun c => c.name == name) =
      conns.countP (fun c => c.name == name) := by
  induction conns with
  | nil => rfl
  | cons c rest ih =>
    by_cases hc : (c.name == name) = true
    · simp [updateFirstConn, hc, List.countP_cons]
    · simp only [Bool.not_eq_true] at hc
      simp [updateFirstConn, hc, List.countP_cons, ih]

/-- After updating the first connection of a given name, looking that
name up finds the updated record. -/
theorem find?_updateFirstConn (name url : String) (ssl : Bool) :
    ∀ (conns : List NetBoxConnection) (c : NetBoxConnection),
      conns.find? (fun x => x.name == name) = some c →
      (updateFirstConn name url ssl conns).find? (fun x => x.name == name) =
        some { c with url := url, verify_ssl := ssl } := by
  intro conns
  induction conns with
  | nil => intro c h; exact absurd h (by simp)
  | cons a rest ih =>
    intro c h
    by_cases ha : (a.name == name) = true
    · have h' : some a = some c := by
        rw [← h]
        simp [List.find?_cons, ha]
      rcases Option.some.inj h' with rfl
      simp only [updateFirstConn, ha, if_true]
      simp [List.find?_cons, ha]
    · have ha' : (a.name == name) = false := by simpa using ha
      have h2 : rest.find? (fun x => x.name == name) = some c := by
        rw [← h]
        simp [List.find?_cons, ha']
      simp only [updateFirstConn, ha', Bool.false_eq_true, if_false]
      rw [List.find?_cons]
      simp only [ha', cond_false]
      exact ih c h2

/-- Claim C9: on an unlocked store where connection `name` exists but no
credential entry is keyed for it, `update_connection` returns success
and updates the connection's url and verify_ssl, yet the credential list
is unchanged (still without an entry for `name`), so a subsequent
`get_connection_token` returns none — the supplied token is silently not
stored. -/
theorem C9_update_without_cred (s : ConfigState) (name url token : String) (ssl : Bool)
    (hu : s.unlocked = true)
    (c : NetBoxConnection) (hc : get_connection s name = some c)
    (hnocred : ∀ ce ∈ s.creds, ce.key ≠ tokenKey name) :
    (update_connection s name url token ssl).1 = true ∧
    get_connection (update_connection s name url token ssl).2 name =
      some { c with url := url, verify_ssl := ssl } ∧
    (update_connection s name url token ssl).2.creds = s.creds ∧
    get_connection_token (update_connection s name url token ssl).2 name = none := by
  have hres : update_connection s name url token ssl =
      (true, { s with
        connections := updateFirstConn name url ssl s.connections,
        creds := updateFirstCred (tokenKey name) token s.creds }) := by
    unfold update_connection
    rw [hc]
  have hcreds : updateFirstCred (tokenKey name) token s.creds = s.creds :=
    updateFirstCred_id _ _ _ hnocred
  refine ⟨by rw [hres], ?_, by rw [hres]; exact hcreds, ?_⟩
  · rw [hres]
    exact find?_updateFirstConn name url ssl s.connections c hc
  · rw [hres]
    unfold get_connection_token
    simp only [hu, Bool.not_true, Bool.false_eq_true, if_false]
    have : s.creds.find? (fun ce => ce.key == tokenKey name) = none := by
      rw [List.find?_eq_none]
      intro ce hce
      simp [hnocred ce hce]
    simp [hcreds, this]

/-- Witness for C9: the theorem applied to the concrete store `c9Store`
(one connection `lab1`, empty credential list). -/
theorem C9_update_without_cred_witness :
    (update_connection c9Store "lab1" "https://new.example.com" "tok-xyz" true).1 = true ∧
    get_connection (update_connection c9Store "lab1" "https://new.example.com" "tok-xyz" true).2
      "lab1" = some ⟨"lab1", "https://new.example.com", true, ""⟩ ∧
    (update_connection c9Store "lab1" "https://new.example.com" "tok-xyz" true).2.creds =
      c9Store.creds ∧
    get_connection_token
      (update_connection c9Store "lab1" "https://new.example.com" "tok-xyz" true).2 "lab1" =
        none :=
  C9_update_without_cred c9Store "lab1" "https://new.example.com" "tok-xyz" true rfl
    ⟨"lab1", "https://old.example.com", false, ""⟩ rfl (by decide)

/-- Claim C10: `delete_connection` on an unlocked store reports success
even when no saved connection with that name exists; in that case
(under the store's invariant that credential entries exist only for
saved connections, so no entry is keyed for the name either) both the
connection list and the credential-entry list are unchanged. -/
theorem C10_delete_nonexistent (s : ConfigState) (name : String)
    (hu : s.unlocked = true)
    (hnone : get_connection s name = none)
    (hnocred : ∀ ce ∈ s.creds, ce.key ≠ tokenKey name) :
    (delete_connection s name).1 = true ∧
    (delete_connection s name).2.connections = s.connections ∧
    (delete_connection s name).2.creds = s.creds := by
  have hres : delete_connection s name =
      (true, { s with
        connections := s.connections.filter (fun c => c.name != name),
        creds := s.creds.filter (fun ce => ce.key != tokenKey name) }) := by
    unfold delete_connection
    simp [hu]
  refine ⟨by rw [hres], ?_, ?_⟩
  · rw [hres]
    apply List.filter_eq_self.2
    intro c hcmem
    have := List.find?_eq_none.1 hnone c hcmem
    simpa using this
  · rw [hres]
    apply List.filter_eq_self.2
    intro ce hce
    simpa using hnocred ce hce

/-- Witness for C10: deleting the absent name `ghost` from the concrete
empty unlocked store. -/
theorem C10_delete_nonexistent_witness :
    (delete_connection emptyStore "ghost").1 = true ∧
    (delete_connection emptyStore "ghost").2.connections = emptyStore.connections ∧
    (delete_connection emptyStore "ghost").2.creds = emptyStore.creds :=
  C10_delete_nonexistent emptyStore "ghost" rfl rfl (by decide)

/-- Counterexample to claim C2 as stated: on the concrete unlocked empty
store, `add_connection` appends a credential entry whose `password` is
the plaintext token exactly as supplied (`abc123`), not the output of
the store's encryption of it (which would be `ENC:abc123` here) — the
encrypted value is computed by the source but never stored. -/
theorem C2_counterexample :
    (add_connection c2State "lab1" "https://nb.example.com" "abc123" false).2.creds =
      [⟨tokenKey "lab1", "abc123", "netbox_api_token"⟩] ∧
    c2State.enc "abc123" = "ENC:abc123" ∧
    "ENC:abc123" ≠ "abc123" := by
  exact ⟨rfl, rfl, by decide⟩

/-- Claim C2 as amended: on an unlocked store where the name is new and
no credential entry is keyed for it, `add_connection` succeeds and
appends a credential entry under `netbox_token_<name>` holding the
plaintext token as supplied (the encryption output is computed but not
stored). -/
theorem C2_amended (s : ConfigState) (name url token : String) (ssl : Bool)
    (hu : s.unlocked = true)
    (hnew : get_connection s name = none)
    (hnocred : ∀ ce ∈ s.creds, ce.key ≠ tokenKey name) :
    (add_connection s name url token ssl).1 = true ∧
    (add_connection s name url token ssl).2.creds =
      s.creds ++ [{ key := tokenKey name, password := token, type := "netbox_api_token" }] := by
  have hany : s.creds.any (fun c => c.key == tokenKey name) = false := by
    rw [List.any_eq_false]
    intro ce hce
    simp [hnocred ce hce]
  unfold add_connection
  simp only [hu, Bool.not_true, Bool.false_eq_true, if_false]
  rw [hnew]
  simp [hany]

/-- Witness for C2 (amended): the theorem applied to the concrete
unlocked empty store. -/
theorem C2_amended_witness :
    (add_connection c2State "lab1" "https://nb.example.com" "abc123" false).1 = true ∧
    (add_connection c2State "lab1" "https://nb.example.com" "abc123" false).2.creds =
      c2State.creds ++ [⟨tokenKey "lab1", "abc123", "netbox_api_token"⟩] :=
  C2_amended c2State "lab1" "https://nb.example.com" "abc123" false rfl rfl (by decide)

/-- On an unlocked store, adding a new name takes the append branch. -/
theorem add_connection_of_new (s : ConfigState) (name url token : String) (ssl : Bool)
    (hu : s.unlocked = true) (hex : get_connection s name = none) :
    add_connection s name url token ssl =
      (true, { s with
        connections := s.connections ++
          [({ name := name, url := url, verify_ssl := ssl } : NetBoxConnection)],
        creds := if s.creds.any (fun c => c.key == tokenKey name) then
            updateFirstCred (tokenKey name) token s.creds
          else
            s.creds ++
              [{ key := tokenKey name, password := token, type := "netbox_api_token" }] }) := by
  unfold add_connection
  simp only [hu, Bool.not_true, Bool.false_eq_true, if_false]
  rw [hex]

/-- On an unlocked store, adding an existing name delegates to
`update_connection`. -/
theorem add_connection_of_existing (s : ConfigState) (name url token : String) (ssl : Bool)
    (c : NetBoxConnection) (hu : s.unlocked = true) (hex : get_connection s name = some c) :
    add_connection s name url token ssl = update_connection s name url token ssl := by
  unfold add_connection
  simp only [hu, Bool.not_true, Bool.false_eq_true, if_false]
  rw [hex]

/-- `update_connection` on an existing name: the explicit result. -/
theorem update_connection_of_existing (s : ConfigState) (name url token : String) (ssl : Bool)
    (c : NetBoxConnection) (hex : get_connection s name = some c) :
    update_connection s name url token ssl =
      (true, { s with
        connections := updateFirstConn name url ssl s.connections,
        creds := updateFirstCred (tokenKey name) token s.creds }) := by
  unfold update_connection
  rw [hex]

/-- Claim C6: on an unlocked store holding at most one connection of the
given name (the uniqueness the manager itself maintains), two successive
`add_connection` calls with the same name leave exactly one saved
connection of that name, and its url is the second call's url — the
second call behaves as an update and never appends a duplicate. -/
theorem C6_add_twice (s : ConfigState) (n url1 tok1 url2 tok2 : String) (ssl1 ssl2 : Bool)
    (hu : s.unlocked = true)
    (huniq : s.connections.countP (fun c => c.name == n) ≤ 1) :
    ((add_connection (add_connection s n url1 tok1 ssl1).2 n url2 tok2 ssl2).2.connections.countP
        (fun c => c.name == n) = 1) ∧
    ∃ c, get_connection (add_connection (add_connection s n url1 tok1 ssl1).2 n url2 tok2
        ssl2).2 n = some c ∧ c.url = url2 := by
  have hmain : ∃ c1, get_connection (add_connection s n url1 tok1 ssl1).2 n = some c1 ∧
      (add_connection s n url1 tok1 ssl1).2.connections.countP (fun c => c.name == n) = 1 ∧
      (add_connection s n url1 tok1 ssl1).2.unlocked = true := by
    cases hex : get_connection s n with
    | none =>
      have hzero : s.connections.countP (fun c => c.name == n) = 0 := by
        rw [List.countP_eq_zero]
        intro c hc
        simpa using List.find?_eq_none.1 hex c hc
      refine ⟨({ name := n, url := url1, verify_ssl := ssl1 } : NetBoxConnection), ?_, ?_, ?_⟩
      · rw [add_connection_of_new s n url1 tok1 ssl1 hu hex]
        show (s.connections ++
          [({ name := n, url := url1, verify_ssl := ssl1 } : NetBoxConnection)]).find?
            (fun c => c.name == n) = _
        rw [List.find?_append,
          show s.connections.find? (fun c => c.name == n) = none from hex]
        simp [List.find?_cons]
      · rw [add_connection_of_new s n url1 tok1 ssl1 hu hex]
        show (s.connections ++
          [({ name := n, url := url1, verify_ssl := ssl1 } : NetBoxConnection)]).countP
            (fun c => c.name == n) = 1
        simp [List.countP_append, hzero, List.countP_cons]
      · rw [add_connection_of_new s n url1 tok1 ssl1 hu hex]
        exact hu
    | some c0 =>
      have hex' : s.connections.find? (fun c => c.name == n) = some c0 := hex
      have hc0 := List.find?_some hex'
      have hone : s.connections.countP (fun c => c.name == n) = 1 := by
        have hpos : 0 < s.connections.countP (fun c => c.name == n) :=
          List.countP_pos_iff.2 ⟨c0, List.mem_of_find?_eq_some hex', hc0⟩
        omega
      refine ⟨{ c0 with url := url1, verify_ssl := ssl1 }, ?_, ?_, ?_⟩
      · rw [add_connection_of_existing s n url1 tok1 ssl1 c0 hu hex,
          update_connection_of_existing s n url1 tok1 ssl1 c0 hex]
        exact find?_updateFirstConn n url1 ssl1 _ _ hex'
      · rw [add_connection_of_existing s n url1 tok1 ssl1 c0 hu hex,
          update_connection_of_existing s n url1 tok1 ssl1 c0 hex]
        show (updateFirstConn n url1 ssl1 s.connections).countP (fun c => c.name == n) = 1
        rw [countP_updateFirstConn]
        exact hone
      · rw [add_connection_of_existing s n url1 tok1 ssl1 c0 hu hex,
          update_connection_of_existing s n url1 tok1 ssl1 c0 hex]
        exact hu
  rcases hmain with ⟨c1, hfind1, hcount1, hunlocked1⟩
  rw [add_connection_of_existing _ n url2 tok2 ssl2 c1 hunlocked1 hfind1,
    update_connection_of_existing _ n url2 tok2 ssl2 c1 hfind1]
  constructor
  · show (updateFirstConn n url2 ssl2
      (add_connection s n url1 tok1 ssl1).2.connections).countP (fun c => c.name == n) = 1
    rw [countP_updateFirstConn]
    exact hcount1
  · exact ⟨{ c1 with url := url2, verify_ssl := ssl2 }, find?_updateFirstConn n url2 ssl2 _ _ hfind1, rfl⟩

/-- Witness for C6: two adds of the name `nb1` on the concrete empty
unlocked store leave one connection holding the second url. -/
theorem C6_add_twice_witness :
    ((add_connection (add_connection emptyStore "nb1" "https://a" "t1" false).2 "nb1"
        "https://b" "t2" false).2.connections.countP (fun c => c.name == "nb1") = 1) ∧
    ∃ c, get_connection (add_connection (add_connection emptyStore "nb1" "https://a" "t1"
        false).2 "nb1" "https://b" "t2" false).2 "nb1" = some c ∧ c.url = "https://b" :=
  C6_add_twice emptyStore "nb1" "https://a" "t1" "https://b" "t2" false false rfl (by decide)

end NetboxWizard
